import Mathlib

/-!
Verification development for the wutils Unicode utility library.

The definitions below are a shallow embedding of the C++ sources:
byte/unit sequences become `List Nat`, the UTF decoders and encoders
become pure functions, and the index-advancing conversion loops become
fuel-based recursions (the fuel is the input length; every loop
iteration of the source consumes at least one input unit, so that fuel
is always sufficient).  `ErrorPolicy` mirrors the enum in wutils.hpp.
-/

namespace Wutils

/-- Mirrors `wutils::ErrorPolicy` (wutils.hpp). -/
inductive ErrorPolicy where
  | useReplacementCharacter
  | skipInvalidValues
  | stopOnFirstError
deriving DecidableEq

/-- Mirrors `internal::DecodeResult` (src/wutils.cpp). -/
structure DecodeResult where
  codepoint : Nat
  consumed_units : Nat
  is_valid : Bool
deriving DecidableEq

/-- `wutils::detail::REPLACEMENT_CHAR_8`: the UTF-8 bytes of U+FFFD. -/
def REPLACEMENT_CHAR_8 : List Nat := [0xEF, 0xBF, 0xBD]

/-- `wutils::detail::REPLACEMENT_CHAR_16`. -/
def REPLACEMENT_CHAR_16 : Nat := 0xFFFD

/-- `wutils::detail::REPLACEMENT_CHAR_32`. -/
def REPLACEMENT_CHAR_32 : Nat := 0xFFFD

/-- Mirrors `internal::decode_one_utf8` (src/wutils.cpp).  The C++ reads
`input.size() < 2 || (input[1] & 0xC0) != 0x80` etc.; the list matches
below express exactly the same conditions. -/
def decode_one_utf8 : List Nat → DecodeResult
  | [] => ⟨0, 0, false⟩
  | c :: rest =>
    if c < 0x80 then ⟨c, 1, true⟩
    else if c < 0xC2 then ⟨0, 1, false⟩
    else if c < 0xE0 then
      match rest with
      | [] => ⟨0, 1, false⟩
      | b1 :: _ =>
        if ¬ (b1 &&& 0xC0 = 0x80) then ⟨0, 1, false⟩
        else
          let cp := ((c &&& 0x1F) <<< 6) ||| (b1 &&& 0x3F)
          if cp < 0x80 then ⟨0, 1, false⟩ else ⟨cp, 2, true⟩
    else if c < 0xF0 then
      match rest with
      | b1 :: b2 :: _ =>
        if ¬ (b1 &&& 0xC0 = 0x80) ∨ ¬ (b2 &&& 0xC0 = 0x80) then ⟨0, 1, false⟩
        else
          let cp := ((c &&& 0x0F) <<< 12) ||| ((b1 &&& 0x3F) <<< 6) ||| (b2 &&& 0x3F)
          if cp < 0x800 then ⟨0, 1, false⟩
          else if 0xD800 ≤ cp ∧ cp ≤ 0xDFFF then ⟨0, 1, false⟩
          else ⟨cp, 3, true⟩
      | _ => ⟨0, 1, false⟩
    else if c < 0xF5 then
      match rest with
      | b1 :: b2 :: b3 :: _ =>
        if ¬ (b1 &&& 0xC0 = 0x80) ∨ ¬ (b2 &&& 0xC0 = 0x80) ∨ ¬ (b3 &&& 0xC0 = 0x80) then
          ⟨0, 1, false⟩
        else
          let cp := ((c &&& 0x07) <<< 18) ||| ((b1 &&& 0x3F) <<< 12) |||
            ((b2 &&& 0x3F) <<< 6) ||| (b3 &&& 0x3F)
          if cp < 0x10000 then ⟨0, 1, false⟩
          else if 0x10FFFF < cp then ⟨0, 1, false⟩
          else ⟨cp, 4, true⟩
      | _ => ⟨0, 1, false⟩
    else ⟨0, 1, false⟩

/-- Mirrors `internal::decode_one_utf16` (src/wutils.cpp). -/
def decode_one_utf16 : List Nat → DecodeResult
  | [] => ⟨0, 0, false⟩
  | c1 :: rest =>
    if c1 < 0xD800 ∨ 0xDFFF < c1 then ⟨c1, 1, true⟩
    else if 0xDBFF < c1 then ⟨0, 1, false⟩
    else
      match rest with
      | [] => ⟨0, 1, false⟩
      | c2 :: _ =>
        if c2 < 0xDC00 ∨ 0xDFFF < c2 then ⟨0, 1, false⟩
        else ⟨0x10000 + (((c1 - 0xD800) <<< 10) ||| (c2 - 0xDC00)), 2, true⟩

/-- Mirrors `internal::encode_utf8` (src/wutils.cpp); returns the bytes the
C++ version appends to its output string.  Every caller in the source
passes a Unicode scalar value, for which the `static_cast<char8_t>`
truncations of the source are the identity. -/
def encode_utf8 (cp : Nat) : List Nat :=
  if cp ≤ 0x7F then [cp]
  else if cp ≤ 0x7FF then
    [0xC0 ||| (cp >>> 6), 0x80 ||| (cp &&& 0x3F)]
  else if cp ≤ 0xFFFF then
    [0xE0 ||| (cp >>> 12), 0x80 ||| ((cp >>> 6) &&& 0x3F), 0x80 ||| (cp &&& 0x3F)]
  else
    [0xF0 ||| (cp >>> 18), 0x80 ||| ((cp >>> 12) &&& 0x3F),
     0x80 ||| ((cp >>> 6) &&& 0x3F), 0x80 ||| (cp &&& 0x3F)]

/-- Mirrors `internal::encode_utf16` (src/wutils.cpp); returns the units the
C++ version appends.  Callers pass scalar values, for which the
`static_cast<char16_t>` truncations are the identity. -/
def encode_utf16 (cp : Nat) : List Nat :=
  if cp ≤ 0xFFFF then [cp]
  else [0xD800 + ((cp - 0x10000) >>> 10), 0xDC00 + ((cp - 0x10000) &&& 0x3FF)]

/-- UTF-8 encoding of a whole codepoint sequence (concatenated chunks). -/
def encodeAllUtf8 : List Nat → List Nat
  | [] => []
  | c :: cs => encode_utf8 c ++ encodeAllUtf8 cs

/-- UTF-16 encoding of a whole codepoint sequence (concatenated chunks). -/
def encodeAllUtf16 : List Nat → List Nat
  | [] => []
  | c :: cs => encode_utf16 c ++ encodeAllUtf16 cs

/-- Fuelled loop of `wutils::detail::u16(u8string_view, ErrorPolicy)`
(src/src/wutils.cpp, UTF-8 to UTF-16).  One fuel unit per loop iteration;
each iteration consumes at least one input unit, so fuel = input length
is always enough. -/
def u16_of_u8_go (pol : ErrorPolicy) : Nat → List Nat → List Nat × Bool
  | _, [] => ([], true)
  | 0, _ :: _ => ([], true)
  | fuel + 1, b :: rest =>
    let s := b :: rest
    let d := decode_one_utf8 s
    if d.is_valid then
      let r := u16_of_u8_go pol fuel (s.drop d.consumed_units)
      (encode_utf16 d.codepoint ++ r.1, r.2)
    else
      match pol with
      | .skipInvalidValues =>
        let r := u16_of_u8_go pol fuel (s.drop d.consumed_units)
        (r.1, false)
      | .stopOnFirstError => ([], false)
      | .useReplacementCharacter =>
        let r := u16_of_u8_go pol fuel (s.drop d.consumed_units)
        (encode_utf16 REPLACEMENT_CHAR_32 ++ r.1, false)

/-- `wutils::detail::u16(u8string_view, ErrorPolicy)` (src/src/wutils.cpp). -/
def u16_of_u8 (s : List Nat) (pol : ErrorPolicy) : List Nat × Bool :=
  u16_of_u8_go pol s.length s

/-- Fuelled loop of `wutils::detail::u32(u8string_view, ErrorPolicy)`
(src/src/wutils.cpp, UTF-8 to UTF-32). -/
def u32_of_u8_go (pol : ErrorPolicy) : Nat → List Nat → List Nat × Bool
  | _, [] => ([], true)
  | 0, _ :: _ => ([], true)
  | fuel + 1, b :: rest =>
    let s := b :: rest
    let d := decode_one_utf8 s
    if d.is_valid then
      let r := u32_of_u8_go pol fuel (s.drop d.consumed_units)
      (d.codepoint :: r.1, r.2)
    else
      match pol with
      | .skipInvalidValues =>
        let r := u32_of_u8_go pol fuel (s.drop d.consumed_units)
        (r.1, false)
      | .stopOnFirstError => ([], false)
      | .useReplacementCharacter =>
        let r := u32_of_u8_go pol fuel (s.drop d.consumed_units)
        (REPLACEMENT_CHAR_32 :: r.1, false)

/-- `wutils::detail::u32(u8string_view, ErrorPolicy)` (src/src/wutils.cpp). -/
def u32_of_u8 (s : List Nat) (pol : ErrorPolicy) : List Nat × Bool :=
  u32_of_u8_go pol s.length s

/-- Fuelled loop of `wutils::detail::u8(u16string_view, ErrorPolicy)`
(src/src/wutils.cpp, UTF-16 to UTF-8). -/
def u8_of_u16_go (pol : ErrorPolicy) : Nat → List Nat → List Nat × Bool
  | _, [] => ([], true)
  | 0, _ :: _ => ([], true)
  | fuel + 1, b :: rest =>
    let s := b :: rest
    let d := decode_one_utf16 s
    if d.is_valid then
      let r := u8_of_u16_go pol fuel (s.drop d.consumed_units)
      (encode_utf8 d.codepoint ++ r.1, r.2)
    else
      match pol with
      | .skipInvalidValues =>
        let r := u8_of_u16_go pol fuel (s.drop d.consumed_units)
        (r.1, false)
      | .stopOnFirstError => ([], false)
      | .useReplacementCharacter =>
        let r := u8_of_u16_go pol fuel (s.drop d.consumed_units)
        (REPLACEMENT_CHAR_8 ++ r.1, false)

/-- `wutils::detail::u8(u16string_view, ErrorPolicy)` (src/src/wutils.cpp). -/
def u8_of_u16 (s : List Nat) (pol : ErrorPolicy) : List Nat × Bool :=
  u8_of_u16_go pol s.length s

/-- Fuelled loop of `wutils::detail::u32(u16string_view, ErrorPolicy)`
(src/src/wutils.cpp, UTF-16 to UTF-32). -/
def u32_of_u16_go (pol : ErrorPolicy) : Nat → List Nat → List Nat × Bool
  | _, [] => ([], true)
  | 0, _ :: _ => ([], true)
  | fuel + 1, b :: rest =>
    let s := b :: rest
    let d := decode_one_utf16 s
    if d.is_valid then
      let r := u32_of_u16_go pol fuel (s.drop d.consumed_units)
      (d.codepoint :: r.1, r.2)
    else
      match pol with
      | .skipInvalidValues =>
        let r := u32_of_u16_go pol fuel (s.drop d.consumed_units)
        (r.1, false)
      | .stopOnFirstError => ([], false)
      | .useReplacementCharacter =>
        let r := u32_of_u16_go pol fuel (s.drop d.consumed_units)
        (REPLACEMENT_CHAR_32 :: r.1, false)

/-- `wutils::detail::u32(u16string_view, ErrorPolicy)` (src/src/wutils.cpp). -/
def u32_of_u16 (s : List Nat) (pol : ErrorPolicy) : List Nat × Bool :=
  u32_of_u16_go pol s.length s

/-- `wutils::detail::u8(u32string_view, ErrorPolicy)` (src/src/wutils.cpp,
UTF-32 to UTF-8); a plain element-wise loop. -/
def u8_of_u32 (s : List Nat) (pol : ErrorPolicy) : List Nat × Bool :=
  match s with
  | [] => ([], true)
  | cp :: rest =>
    if cp ≤ 0x10FFFF ∧ ¬ (0xD800 ≤ cp ∧ cp ≤ 0xDFFF) then
      let r := u8_of_u32 rest pol
      (encode_utf8 cp ++ r.1, r.2)
    else
      match pol with
      | .skipInvalidValues =>
        let r := u8_of_u32 rest pol
        (r.1, false)
      | .stopOnFirstError => ([], false)
      | .useReplacementCharacter =>
        let r := u8_of_u32 rest pol
        (REPLACEMENT_CHAR_8 ++ r.1, false)

/-- `wutils::detail::u16(u32string_view, ErrorPolicy)` (src/src/wutils.cpp,
UTF-32 to UTF-16); a plain element-wise loop. -/
def u16_of_u32 (s : List Nat) (pol : ErrorPolicy) : List Nat × Bool :=
  match s with
  | [] => ([], true)
  | cp :: rest =>
    if cp ≤ 0x10FFFF ∧ ¬ (0xD800 ≤ cp ∧ cp ≤ 0xDFFF) then
      let r := u16_of_u32 rest pol
      (encode_utf16 cp ++ r.1, r.2)
    else
      match pol with
      | .skipInvalidValues =>
        let r := u16_of_u32 rest pol
        (r.1, false)
      | .stopOnFirstError => ([], false)
      | .useReplacementCharacter =>
        let r := u16_of_u32 rest pol
        (REPLACEMENT_CHAR_16 :: r.1, false)

/-- The static table `combining` of `internal::mk_wcwidth`
(src/src/wutils.cpp lines 158-304), transcribed entry for entry in source
order, including the two entries appended after the
`/* Add emoji modifiers */` comment. -/
def combining : List (Nat × Nat) :=
  [(0x0300, 0x036F), (0x0483, 0x0486), (0x0488, 0x0489), (0x0591, 0x05BD),
   (0x05BF, 0x05BF), (0x05C1, 0x05C2), (0x05C4, 0x05C5), (0x05C7, 0x05C7),
   (0x0600, 0x0603), (0x0610, 0x0615), (0x064B, 0x065E), (0x0670, 0x0670),
   (0x06D6, 0x06E4), (0x06E7, 0x06E8), (0x06EA, 0x06ED), (0x070F, 0x070F),
   (0x0711, 0x0711), (0x0730, 0x074A), (0x07A6, 0x07B0), (0x07EB, 0x07F3),
   (0x0901, 0x0902), (0x093C, 0x093C), (0x0941, 0x0948), (0x094D, 0x094D),
   (0x0951, 0x0954), (0x0962, 0x0963), (0x0981, 0x0981), (0x09BC, 0x09BC),
   (0x09C1, 0x09C4), (0x09CD, 0x09CD), (0x09E2, 0x09E3), (0x0A01, 0x0A02),
   (0x0A3C, 0x0A3C), (0x0A41, 0x0A42), (0x0A47, 0x0A48), (0x0A4B, 0x0A4D),
   (0x0A70, 0x0A71), (0x0A81, 0x0A82), (0x0ABC, 0x0ABC), (0x0AC1, 0x0AC5),
   (0x0AC7, 0x0AC8), (0x0ACD, 0x0ACD), (0x0AE2, 0x0AE3), (0x0B01, 0x0B01),
   (0x0B3C, 0x0B3C), (0x0B3F, 0x0B3F), (0x0B41, 0x0B43), (0x0B4D, 0x0B4D),
   (0x0B56, 0x0B56), (0x0B82, 0x0B82), (0x0BC0, 0x0BC0), (0x0BCD, 0x0BCD),
   (0x0C3E, 0x0C40), (0x0C46, 0x0C48), (0x0C4A, 0x0C4D), (0x0C55, 0x0C56),
   (0x0CBC, 0x0CBC), (0x0CBF, 0x0CBF), (0x0CC6, 0x0CC6), (0x0CCC, 0x0CCD),
   (0x0CE2, 0x0CE3), (0x0D41, 0x0D43), (0x0D4D, 0x0D4D), (0x0DCA, 0x0DCA),
   (0x0DD2, 0x0DD4), (0x0DD6, 0x0DD6), (0x0E31, 0x0E31), (0x0E34, 0x0E3A),
   (0x0E47, 0x0E4E), (0x0EB1, 0x0EB1), (0x0EB4, 0x0EB9), (0x0EBB, 0x0EBC),
   (0x0EC8, 0x0ECD), (0x0F18, 0x0F19), (0x0F35, 0x0F35), (0x0F37, 0x0F37),
   (0x0F39, 0x0F39), (0x0F71, 0x0F7E), (0x0F80, 0x0F84), (0x0F86, 0x0F87),
   (0x0F90, 0x0F97), (0x0F99, 0x0FBC), (0x0FC6, 0x0FC6), (0x102D, 0x1030),
   (0x1032, 0x1032), (0x1036, 0x1037), (0x1039, 0x1039), (0x1058, 0x1059),
   (0x1160, 0x11FF), (0x135F, 0x135F), (0x1712, 0x1714), (0x1732, 0x1734),
   (0x1752, 0x1753), (0x1772, 0x1773), (0x17B4, 0x17B5), (0x17B7, 0x17BD),
   (0x17C6, 0x17C6), (0x17C9, 0x17D3), (0x17DD, 0x17DD), (0x180B, 0x180D),
   (0x18A9, 0x18A9), (0x1920, 0x1922), (0x1927, 0x1928), (0x1932, 0x1932),
   (0x1939, 0x193B), (0x1A17, 0x1A18), (0x1B00, 0x1B03), (0x1B34, 0x1B34),
   (0x1B36, 0x1B3A), (0x1B3C, 0x1B3C), (0x1B42, 0x1B42), (0x1B6B, 0x1B73),
   (0x1DC0, 0x1DCA), (0x1DFE, 0x1DFF), (0x200B, 0x200F), (0x202A, 0x202E),
   (0x2060, 0x2063), (0x206A, 0x206F), (0x20D0, 0x20EF), (0x302A, 0x302F),
   (0x3099, 0x309A), (0xA806, 0xA806), (0xA80B, 0xA80B), (0xA825, 0xA826),
   (0xFB1E, 0xFB1E), (0xFE00, 0xFE0F), (0xFE20, 0xFE23), (0xFEFF, 0xFEFF),
   (0xFFF9, 0xFFFB), (0x10A01, 0x10A03), (0x10A05, 0x10A06), (0x10A0C, 0x10A0F),
   (0x10A38, 0x10A3A), (0x10A3F, 0x10A3F), (0x1D167, 0x1D169), (0x1D173, 0x1D182),
   (0x1D185, 0x1D18B), (0x1D1AA, 0x1D1AD), (0x1D242, 0x1D244), (0xE0001, 0xE0001),
   (0xE0020, 0xE007F), (0xE0100, 0xE01EF),
   (0x1F3FB, 0x1F3FF), (0x200D, 0x200D)]

/-- Fuelled loop of `internal::bisearch` (src/src/wutils.cpp lines 104-121).
In the source `min`, `max`, `mid` are unsigned (`char32_t`); `max = mid - 1`
with `mid = 0` is unreachable (it would need `ucs < table[0].first`, which
the entry guard excludes), so the truncated `Nat` subtraction used here
agrees with the source on every reachable state.  The fuel bounds the loop;
each reachable iteration strictly shrinks `max - min`, so 200 units are more
than enough for the 147-entry table. -/
def bisearch_go (ucs : Nat) (table : List (Nat × Nat)) :
    Nat → Nat → Nat → Bool
  | 0, _, _ => false
  | fuel + 1, mn, mx =>
    if mn ≤ mx then
      let e := table.getD ((mn + mx) / 2) (0, 0)
      if e.2 < ucs then bisearch_go ucs table fuel ((mn + mx) / 2 + 1) mx
      else if ucs < e.1 then bisearch_go ucs table fuel mn ((mn + mx) / 2 - 1)
      else true
    else false

/-- `internal::bisearch` called like `mk_wcwidth` does, with
`max = table.length - 1`. -/
def bisearch (ucs : Nat) (table : List (Nat × Nat)) : Bool :=
  match table with
  | [] => false
  | e0 :: _ =>
    if ucs < e0.1 ∨ (table.getD (table.length - 1) (0, 0)).2 < ucs then false
    else bisearch_go ucs table 200 0 (table.length - 1)

/-- Mirrors `internal::mk_wcwidth` (src/src/wutils.cpp lines 155-335).
The final `return 1 + (bool-expression)` of the source is written as an
`if` yielding 2 or 1. -/
def mk_wcwidth (ucs : Nat) : Int :=
  if ucs = 0 then 0
  else if ucs < 32 ∨ (0x7F ≤ ucs ∧ ucs < 0xA0) then -1
  else if bisearch ucs combining then 0
  else if (0x1100 ≤ ucs ∧ ucs ≤ 0x115F) ∨
      ucs = 0x2329 ∨ ucs = 0x232A ∨
      (0x2E80 ≤ ucs ∧ ucs ≤ 0xA4CF ∧ ucs ≠ 0x303F) ∨
      (0xAC00 ≤ ucs ∧ ucs ≤ 0xD7A3) ∨
      (0xF900 ≤ ucs ∧ ucs ≤ 0xFAFF) ∨
      (0xFE10 ≤ ucs ∧ ucs ≤ 0xFE19) ∨
      (0xFE30 ≤ ucs ∧ ucs ≤ 0xFE6F) ∨
      (0xFF00 ≤ ucs ∧ ucs ≤ 0xFF60) ∨
      (0xFFE0 ≤ ucs ∧ ucs ≤ 0xFFE6) ∨
      (0x20000 ≤ ucs ∧ ucs ≤ 0x2FFFD) ∨
      (0x30000 ≤ ucs ∧ ucs ≤ 0x3FFFD) ∨
      (0x1F000 ≤ ucs ∧ ucs ≤ 0x1F9FF) ∨
      (0x1FA00 ≤ ucs ∧ ucs ≤ 0x1FA6F) ∨
      (0x1FA70 ≤ ucs ∧ ucs ≤ 0x1FAFF) then 2
  else 1

/-- The emoji cluster-starter test of `internal::mk_wcswidth`
(src/src/wutils.cpp line 351). -/
def isEmoji (c : Nat) : Bool :=
  (0x1F000 ≤ c ∧ c ≤ 0x1FAFF) ∨ (0x2600 ≤ c ∧ c ≤ 0x27BF)

/-- The modifier test of the inner loop of `internal::mk_wcswidth`
(src/src/wutils.cpp lines 362-365): skin tones, ZWJ, VS-16, tag range. -/
def isModifier (c : Nat) : Bool :=
  (0x1F3FB ≤ c ∧ c ≤ 0x1F3FF) ∨ c = 0x200D ∨ c = 0xFE0F ∨
    (0xE0020 ≤ c ∧ c ≤ 0xE007F)

/-- The inner modifier-skipping `while` loop of `internal::mk_wcswidth`
(src/src/wutils.cpp lines 361-387): returns the suffix the loop leaves
behind.  The loop stops on end of input, on a NUL unit, or on a
non-modifier; a ZWJ whose successor is a nonzero unit is skipped together
with that successor when the successor is itself an emoji. -/
def skipModifiers : List Nat → List Nat
  | [] => []
  | [c] => if c ≠ 0 ∧ isModifier c then [] else [c]
  | c :: d :: rest2 =>
    if c ≠ 0 ∧ isModifier c then
      if c = 0x200D ∧ d ≠ 0 then
        if isEmoji d then skipModifiers rest2 else skipModifiers (d :: rest2)
      else skipModifiers (d :: rest2)
    else c :: d :: rest2

/-- Fuelled outer loop of `internal::mk_wcswidth` (src/src/wutils.cpp lines
338-397).  The C++ loop head `while (*p && remaining > 0)` stops at a NUL
unit or at the end of the input (the buffers the library passes are
NUL-terminated, so reading `*p` at `remaining == 0` yields 0).  `-1` is the
error result for C0/C1 controls, exactly as in the source; accumulated
width is discarded when a later character yields `-1`. -/
def wcswidthGo : Nat → List Nat → Int
  | _, [] => 0
  | 0, _ :: _ => 0
  | fuel + 1, c :: rest =>
    if c = 0 then 0
    else
      let w := mk_wcwidth c
      if w < 0 then -1
      else if isEmoji c then
        let t := wcswidthGo fuel (skipModifiers rest)
        if t < 0 then -1 else w + t
      else
        let t := wcswidthGo fuel rest
        if t < 0 then -1 else w + t

/-- `internal::mk_wcswidth` on a unit sequence of known length. -/
def mk_wcswidth (l : List Nat) : Int := wcswidthGo l.length l

/-- `wutils::uswidth(u32string_view)` (src/src/wutils.cpp lines 401-403). -/
def uswidth_u32 (s : List Nat) : Int := mk_wcswidth s

/-- `wutils::uswidth(u16string_view)` (src/src/wutils.cpp lines 405-409):
convert to UTF-32 with `SkipInvalidValues`, then measure. -/
def uswidth_u16 (s : List Nat) : Int :=
  mk_wcswidth (u32_of_u16 s ErrorPolicy.skipInvalidValues).1

/-- `wutils::uswidth(u8string_view)` (src/src/wutils.cpp lines 411-415). -/
def uswidth_u8 (s : List Nat) : Int :=
  mk_wcswidth (u32_of_u8 s ErrorPolicy.skipInvalidValues).1

/-- The per-iteration tail of the inline `wutils::u32(u8string_view, ...)`
loop in src/wutils.cpp (lines 579-590): given the decoded `codepoint` and
the rest of the loop, either push the codepoint (when `<= 0x10FFFF`) or
run the invalid-codepoint `switch`.  With `UseReplacementCharacter` that
`switch` has no case, so control falls through and nothing is pushed. -/
def u32_inline_step (pol : ErrorPolicy) (cp : Nat)
    (recRes : Option (List Nat × Bool)) : Option (List Nat × Bool) :=
  if cp ≤ 0x10FFFF then
    match recRes with
    | none => none
    | some r => some (cp :: r.1, r.2)
  else
    match pol with
    | .skipInvalidValues =>
      match recRes with
      | none => none
      | some r => some (r.1, false)
    | .stopOnFirstError => some ([], false)
    | .useReplacementCharacter =>
      match recRes with
      | none => none
      | some r => some (r.1, r.2)

/-- Fuelled loop of the inline `wutils::u32(u8string_view, ErrorPolicy)` of
src/wutils.cpp (lines 539-597).  On an invalid lead byte the source does
not advance `i`: with `SkipInvalidValues` it sets `is_valid = false` and
`continue`s at the same position, and with `UseReplacementCharacter` the
`switch` has no matching case, so control falls through with
`codepoint = 0` and pushes a NUL, again without advancing — both loop
forever in the source; `none` models that the fuel runs out. -/
def u32_inline_go (pol : ErrorPolicy) : Nat → List Nat → Option (List Nat × Bool)
  | _, [] => some ([], true)
  | 0, _ :: _ => none
  | fuel + 1, b :: rest =>
    if b &&& 0x80 = 0 then
      u32_inline_step pol b (u32_inline_go pol fuel rest)
    else if b &&& 0xE0 = 0xC0 ∧ 1 ≤ rest.length then
      u32_inline_step pol (((b &&& 0x1F) <<< 6) ||| (rest.getD 0 0 &&& 0x3F))
        (u32_inline_go pol fuel (rest.drop 1))
    else if b &&& 0xF0 = 0xE0 ∧ 2 ≤ rest.length then
      u32_inline_step pol
        (((b &&& 0x0F) <<< 12) ||| ((rest.getD 0 0 &&& 0x3F) <<< 6) |||
          (rest.getD 1 0 &&& 0x3F))
        (u32_inline_go pol fuel (rest.drop 2))
    else if b &&& 0xF8 = 0xF0 ∧ 3 ≤ rest.length then
      u32_inline_step pol
        (((b &&& 0x07) <<< 18) ||| ((rest.getD 0 0 &&& 0x3F) <<< 12) |||
          ((rest.getD 1 0 &&& 0x3F) <<< 6) ||| (rest.getD 2 0 &&& 0x3F))
        (u32_inline_go pol fuel (rest.drop 3))
    else
      match pol with
      | .skipInvalidValues =>
        match u32_inline_go pol fuel (b :: rest) with
        | none => none
        | some r => some (r.1, false)
      | .stopOnFirstError => some ([], false)
      | .useReplacementCharacter =>
        match u32_inline_go pol fuel (b :: rest) with
        | none => none
        | some r => some (0 :: r.1, r.2)

/-- The inline `wutils::u32(u8string_view, ErrorPolicy)` of src/wutils.cpp
with fuel equal to the input length (enough for every terminating run). -/
def u32_inline (s : List Nat) (pol : ErrorPolicy) : Option (List Nat × Bool) :=
  u32_inline_go pol s.length s

/-- A Unicode scalar value: at most 0x10FFFF and not a surrogate. -/
def IsScalar (cp : Nat) : Prop :=
  cp ≤ 0x10FFFF ∧ ¬ (0xD800 ≤ cp ∧ cp ≤ 0xDFFF)

instance (cp : Nat) : Decidable (IsScalar cp) := by
  unfold IsScalar
  infer_instance

/-- A valid UTF-8 sequence: the concatenation of the shortest encodings of
a sequence of scalar values (spec §3). -/
def ValidUtf8 (s : List Nat) : Prop :=
  ∃ cps : List Nat, (∀ c ∈ cps, IsScalar c) ∧ s = encodeAllUtf8 cps

/-- Well-formed UTF-16: every high surrogate is immediately followed by a
low surrogate and no isolated surrogate occurs. -/
inductive WellFormedUtf16 : List Nat → Prop
  | nil : WellFormedUtf16 []
  | bmp {u : Nat} {rest : List Nat} :
      ¬ (0xD800 ≤ u ∧ u ≤ 0xDFFF) → WellFormedUtf16 rest →
      WellFormedUtf16 (u :: rest)
  | pair {h l : Nat} {rest : List Nat} :
      0xD800 ≤ h → h ≤ 0xDBFF → 0xDC00 ≤ l → l ≤ 0xDFFF →
      WellFormedUtf16 rest → WellFormedUtf16 (h :: l :: rest)

/-- The source's codepoint count of a UTF-8 string: one per iteration of
the decode loop of `wutils::detail::u32`, i.e. one per valid decode plus
one per (single-unit) invalid subpart, the loop advancing by
`consumed_units` exactly as in src/src/wutils.cpp. -/
def utf8CodepointCountGo : Nat → List Nat → Nat
  | _, [] => 0
  | 0, _ :: _ => 0
  | fuel + 1, b :: rest =>
    1 + utf8CodepointCountGo fuel
      ((b :: rest).drop (decode_one_utf8 (b :: rest)).consumed_units)

/-- Codepoint count of a UTF-8 source, as counted by the decode loop. -/
def utf8CodepointCount (s : List Nat) : Nat :=
  utf8CodepointCountGo s.length s

/-- The ordering invariant claimed for the interval tables: each entry is a
nonempty interval and each entry ends strictly before the next begins. -/
def intervalsOrdered : List (Nat × Nat) → Bool
  | [] => true
  | [e] => e.1 ≤ e.2
  | e1 :: e2 :: rest => e1.1 ≤ e1.2 && e1.2 < e2.1 && intervalsOrdered (e2 :: rest)

/-- Same-encoding conversion `wutils::detail::u8(u8string_view, ErrorPolicy)`
(wutils.hpp lines 128-131): a structural copy marked valid. -/
def u8_of_u8 (s : List Nat) (_pol : ErrorPolicy) : List Nat × Bool := (s, true)

/-- Same-encoding conversion `wutils::detail::u16(u16string_view, ErrorPolicy)`
(wutils.hpp lines 139-142). -/
def u16_of_u16 (s : List Nat) (_pol : ErrorPolicy) : List Nat × Bool := (s, true)

/-- Same-encoding conversion `wutils::detail::u32(u32string_view, ErrorPolicy)`
(wutils.hpp lines 150-153). -/
def u32_of_u32 (s : List Nat) (_pol : ErrorPolicy) : List Nat × Bool := (s, true)

/-! ### Arithmetic toolkit: C bit operations as division and remainder -/

theorem shr6_eq (x : Nat) : x >>> 6 = x / 64 := by
  have h := Nat.shiftRight_eq_div_pow x 6
  norm_num at h
  exact h

theorem shr10_eq (x : Nat) : x >>> 10 = x / 1024 := by
  have h := Nat.shiftRight_eq_div_pow x 10
  norm_num at h
  exact h

theorem shr12_eq (x : Nat) : x >>> 12 = x / 4096 := by
  have h := Nat.shiftRight_eq_div_pow x 12
  norm_num at h
  exact h

theorem shr18_eq (x : Nat) : x >>> 18 = x / 262144 := by
  have h := Nat.shiftRight_eq_div_pow x 18
  norm_num at h
  exact h

theorem and63_eq (x : Nat) : x &&& 63 = x % 64 := by
  have h := Nat.and_pow_two_sub_one_eq_mod x 6
  norm_num at h
  exact h

theorem and1023_eq (x : Nat) : x &&& 1023 = x % 1024 := by
  have h := Nat.and_pow_two_sub_one_eq_mod x 10
  norm_num at h
  exact h

theorem orshl (k a b : Nat) (h : b < 2 ^ k) : (a <<< k) ||| b = 2 ^ k * a + b := by
  rw [Nat.shiftLeft_eq, Nat.mul_comm a (2 ^ k)]
  exact (Nat.mul_add_lt_is_or h a).symm

theorem orshl6 (a b : Nat) (h : b < 64) : (a <<< 6) ||| b = 64 * a + b := by
  have e : (2 : Nat) ^ 6 = 64 := by norm_num
  rw [orshl 6 a b (by omega)]
  omega

theorem orshl10 (a b : Nat) (h : b < 1024) : (a <<< 10) ||| b = 1024 * a + b := by
  have e : (2 : Nat) ^ 10 = 1024 := by norm_num
  rw [orshl 10 a b (by omega)]
  omega

theorem orshl12 (a b : Nat) (h : b < 4096) : (a <<< 12) ||| b = 4096 * a + b := by
  have e : (2 : Nat) ^ 12 = 4096 := by norm_num
  rw [orshl 12 a b (by omega)]
  omega

theorem orshl18 (a b : Nat) (h : b < 262144) : (a <<< 18) ||| b = 262144 * a + b := by
  have e : (2 : Nat) ^ 18 = 262144 := by norm_num
  rw [orshl 18 a b (by omega)]
  omega

theorem or_192 (q : Nat) (h : q < 64) : 192 ||| q = 192 + q := by
  revert h
  revert q
  decide

theorem or_224 (q : Nat) (h : q < 32) : 224 ||| q = 224 + q := by
  revert h
  revert q
  decide

theorem or_240 (q : Nat) (h : q < 16) : 240 ||| q = 240 + q := by
  revert h
  revert q
  decide

theorem or_128 (r : Nat) (h : r < 64) : 128 ||| r = 128 + r := by
  revert h
  revert r
  decide

theorem and_c0_cont (r : Nat) (h : r < 64) : (128 + r) &&& 192 = 128 := by
  revert h
  revert r
  decide

theorem and_3f_cont (r : Nat) (h : r < 64) : (128 + r) &&& 63 = r := by
  revert h
  revert r
  decide

theorem and_1f_lead2 (q : Nat) (h : q < 32) : (192 + q) &&& 31 = q := by
  revert h
  revert q
  decide

theorem and_0f_lead3 (q : Nat) (h : q < 16) : (224 + q) &&& 15 = q := by
  revert h
  revert q
  decide

theorem and_07_lead4 (q : Nat) (h : q < 8) : (240 + q) &&& 7 = q := by
  revert h
  revert q
  decide

theorem and_80_ascii (c : Nat) (h : c < 128) : c &&& 128 = 0 := by
  revert h
  revert c
  decide

theorem and_80_lead2 (q : Nat) (h : q < 32) : (192 + q) &&& 128 = 128 := by
  revert h
  revert q
  decide

theorem and_e0_lead2 (q : Nat) (h : q < 32) : (192 + q) &&& 224 = 192 := by
  revert h
  revert q
  decide

theorem and_80_lead3 (q : Nat) (h : q < 16) : (224 + q) &&& 128 = 128 := by
  revert h
  revert q
  decide

theorem and_e0_lead3 (q : Nat) (h : q < 16) : (224 + q) &&& 224 = 224 := by
  revert h
  revert q
  decide

theorem and_f0_lead3 (q : Nat) (h : q < 16) : (224 + q) &&& 240 = 224 := by
  revert h
  revert q
  decide

theorem and_80_lead4 (q : Nat) (h : q < 8) : (240 + q) &&& 128 = 128 := by
  revert h
  revert q
  decide

theorem and_e0_lead4 (q : Nat) (h : q < 8) : (240 + q) &&& 224 = 224 := by
  revert h
  revert q
  decide

theorem and_f0_lead4 (q : Nat) (h : q < 8) : (240 + q) &&& 240 = 240 := by
  revert h
  revert q
  decide

theorem and_f8_lead4 (q : Nat) (h : q < 8) : (240 + q) &&& 248 = 240 := by
  revert h
  revert q
  decide

/-! ### Shape of the encoders on each scalar range -/

theorem encode_utf8_one {c : Nat} (h : c ≤ 0x7F) : encode_utf8 c = [c] := by
  unfold encode_utf8
  rw [if_pos h]

theorem encode_utf8_two {c : Nat} (h1 : 0x80 ≤ c) (h2 : c ≤ 0x7FF) :
    encode_utf8 c = [192 + c / 64, 128 + c % 64] := by
  unfold encode_utf8
  rw [if_neg (by omega), if_pos h2, shr6_eq, and63_eq,
    or_192 (c / 64) (by omega), or_128 (c % 64) (by omega)]

theorem encode_utf8_three {c : Nat} (h1 : 0x800 ≤ c) (h2 : c ≤ 0xFFFF) :
    encode_utf8 c = [224 + c / 4096, 128 + c / 64 % 64, 128 + c % 64] := by
  unfold encode_utf8
  rw [if_neg (by omega), if_neg (by omega), if_pos h2, shr12_eq, shr6_eq,
    and63_eq, and63_eq, or_224 (c / 4096) (by omega),
    or_128 (c / 64 % 64) (by omega), or_128 (c % 64) (by omega)]

theorem encode_utf8_four {c : Nat} (h1 : 0x10000 ≤ c) (h2 : c ≤ 0x10FFFF) :
    encode_utf8 c =
      [240 + c / 262144, 128 + c / 4096 % 64, 128 + c / 64 % 64, 128 + c % 64] := by
  unfold encode_utf8
  rw [if_neg (by omega), if_neg (by omega), if_neg (by omega), shr18_eq,
    shr12_eq, shr6_eq, and63_eq, and63_eq, and63_eq,
    or_240 (c / 262144) (by omega), or_128 (c / 4096 % 64) (by omega),
    or_128 (c / 64 % 64) (by omega), or_128 (c % 64) (by omega)]

theorem encode_utf16_bmp {c : Nat} (h : c ≤ 0xFFFF) : encode_utf16 c = [c] := by
  unfold encode_utf16
  rw [if_pos h]

theorem encode_utf16_pair {c : Nat} (h1 : 0x10000 ≤ c) (h2 : c ≤ 0x10FFFF) :
    encode_utf16 c =
      [0xD800 + (c - 0x10000) / 1024, 0xDC00 + (c - 0x10000) % 1024] := by
  unfold encode_utf16
  rw [if_neg (by omega), shr10_eq, and1023_eq]

/-! ### Decoding the encoder's output -/

theorem decode1 (c : Nat) (rest : List Nat) (h : c < 0x80) :
    decode_one_utf8 (c :: rest) = ⟨c, 1, true⟩ := by
  simp only [decode_one_utf8]
  rw [if_pos h]

theorem decode2 (q r : Nat) (rest : List Nat) (hq1 : 2 ≤ q) (hq2 : q < 32)
    (hr : r < 64) :
    decode_one_utf8 ((192 + q) :: (128 + r) :: rest) = ⟨64 * q + r, 2, true⟩ := by
  simp only [decode_one_utf8]
  rw [if_neg (by omega), if_neg (by omega), if_pos (by omega),
    and_c0_cont r hr, if_neg (by omega), and_1f_lead2 q hq2, and_3f_cont r hr,
    orshl6 q r hr, if_neg (by omega)]

theorem assemble3 (q m1 m0 : Nat) (hm1 : m1 < 64) (hm0 : m0 < 64) :
    ((q <<< 12) ||| (m1 <<< 6)) ||| m0 = 4096 * q + 64 * m1 + m0 := by
  have p6 : (2 : Nat) ^ 6 = 64 := by norm_num
  have e6 : m1 <<< 6 = 64 * m1 := by
    rw [Nat.shiftLeft_eq, p6]
    omega
  rw [e6, orshl12 q (64 * m1) (by omega)]
  have e2 : 4096 * q + 64 * m1 = (64 * q + m1) <<< 6 := by
    rw [Nat.shiftLeft_eq, p6]
    omega
  rw [e2, orshl6 (64 * q + m1) m0 hm0]
  omega

theorem assemble4 (q m2 m1 m0 : Nat) (hm2 : m2 < 64) (hm1 : m1 < 64)
    (hm0 : m0 < 64) :
    (((q <<< 18) ||| (m2 <<< 12)) ||| (m1 <<< 6)) ||| m0 =
      262144 * q + 4096 * m2 + 64 * m1 + m0 := by
  have p6 : (2 : Nat) ^ 6 = 64 := by norm_num
  have p12 : (2 : Nat) ^ 12 = 4096 := by norm_num
  have e12 : m2 <<< 12 = 4096 * m2 := by
    rw [Nat.shiftLeft_eq, p12]
    omega
  have e6 : m1 <<< 6 = 64 * m1 := by
    rw [Nat.shiftLeft_eq, p6]
    omega
  rw [e12, e6, orshl18 q (4096 * m2) (by omega)]
  have e2 : 262144 * q + 4096 * m2 = (64 * q + m2) <<< 12 := by
    rw [Nat.shiftLeft_eq, p12]
    omega
  rw [e2, orshl12 (64 * q + m2) (64 * m1) (by omega)]
  have e3 : 4096 * (64 * q + m2) + 64 * m1 = (64 * (64 * q + m2) + m1) <<< 6 := by
    rw [Nat.shiftLeft_eq, p6]
    omega
  rw [e3, orshl6 (64 * (64 * q + m2) + m1) m0 hm0]
  omega

theorem decode3 (q m1 m0 : Nat) (rest : List Nat) (hq : q < 16) (hm1 : m1 < 64)
    (hm0 : m0 < 64) (hlo : 0x800 ≤ 4096 * q + 64 * m1 + m0)
    (hsur : ¬ (0xD800 ≤ 4096 * q + 64 * m1 + m0 ∧ 4096 * q + 64 * m1 + m0 ≤ 0xDFFF)) :
    decode_one_utf8 ((224 + q) :: (128 + m1) :: (128 + m0) :: rest) =
      ⟨4096 * q + 64 * m1 + m0, 3, true⟩ := by
  simp only [decode_one_utf8]
  rw [if_neg (by omega), if_neg (by omega), if_neg (by omega), if_pos (by omega),
    and_c0_cont m1 hm1, and_c0_cont m0 hm0]
  rw [if_neg (by omega)]
  rw [and_0f_lead3 q hq, and_3f_cont m1 hm1, and_3f_cont m0 hm0,
    assemble3 q m1 m0 hm1 hm0]
  rw [if_neg (by omega), if_neg hsur]

theorem decode4 (q m2 m1 m0 : Nat) (rest : List Nat) (hq : q < 5) (hm2 : m2 < 64)
    (hm1 : m1 < 64) (hm0 : m0 < 64)
    (hlo : 0x10000 ≤ 262144 * q + 4096 * m2 + 64 * m1 + m0)
    (hhi : 262144 * q + 4096 * m2 + 64 * m1 + m0 ≤ 0x10FFFF) :
    decode_one_utf8 ((240 + q) :: (128 + m2) :: (128 + m1) :: (128 + m0) :: rest) =
      ⟨262144 * q + 4096 * m2 + 64 * m1 + m0, 4, true⟩ := by
  simp only [decode_one_utf8]
  rw [if_neg (by omega), if_neg (by omega), if_neg (by omega), if_neg (by omega),
    if_pos (by omega), and_c0_cont m2 hm2, and_c0_cont m1 hm1, and_c0_cont m0 hm0]
  rw [if_neg (by omega)]
  rw [and_07_lead4 q (by omega), and_3f_cont m2 hm2, and_3f_cont m1 hm1,
    and_3f_cont m0 hm0, assemble4 q m2 m1 m0 hm2 hm1 hm0]
  rw [if_neg (by omega), if_neg (by omega)]

/-- A scalar's UTF-8 encoding decodes back to the scalar, whatever follows. -/
theorem decode_of_encode_utf8 (c : Nat) (hc : IsScalar c) (rest : List Nat) :
    decode_one_utf8 (encode_utf8 c ++ rest) = ⟨c, (encode_utf8 c).length, true⟩ := by
  obtain ⟨hhi, hsur⟩ := hc
  by_cases h1 : c ≤ 0x7F
  · rw [encode_utf8_one h1]
    simp only [List.cons_append, List.nil_append, List.length_cons,
      List.length_nil]
    exact decode1 c rest (by omega)
  · by_cases h2 : c ≤ 0x7FF
    · rw [encode_utf8_two (by omega) h2]
      simp only [List.cons_append, List.nil_append, List.length_cons,
        List.length_nil]
      rw [decode2 (c / 64) (c % 64) rest (by omega) (by omega) (by omega),
        show 64 * (c / 64) + c % 64 = c by omega]
    · by_cases h3 : c ≤ 0xFFFF
      · rw [encode_utf8_three (by omega) h3]
        simp only [List.cons_append, List.nil_append, List.length_cons,
          List.length_nil]
        rw [decode3 (c / 4096) (c / 64 % 64) (c % 64) rest (by omega) (by omega)
          (by omega) (by omega) (by omega),
          show 4096 * (c / 4096) + 64 * (c / 64 % 64) + c % 64 = c by omega]
      · rw [encode_utf8_four (by omega) hhi]
        simp only [List.cons_append, List.nil_append, List.length_cons,
          List.length_nil]
        rw [decode4 (c / 262144) (c / 4096 % 64) (c / 64 % 64) (c % 64) rest
          (by omega) (by omega) (by omega) (by omega) (by omega) (by omega),
          show 262144 * (c / 262144) + 4096 * (c / 4096 % 64) + 64 * (c / 64 % 64)
            + c % 64 = c by omega]

/-- A scalar's UTF-16 encoding decodes back to the scalar, whatever follows. -/
theorem decode_of_encode_utf16 (c : Nat) (hc : IsScalar c) (rest : List Nat) :
    decode_one_utf16 (encode_utf16 c ++ rest) = ⟨c, (encode_utf16 c).length, true⟩ := by
  obtain ⟨hhi, hsur⟩ := hc
  by_cases h1 : c ≤ 0xFFFF
  · rw [encode_utf16_bmp h1]
    simp only [List.cons_append, List.nil_append, List.length_cons,
      List.length_nil]
    simp only [decode_one_utf16]
    rw [if_pos (by omega)]
  · rw [encode_utf16_pair (by omega) hhi]
    simp only [List.cons_append, List.nil_append, List.length_cons,
      List.length_nil]
    simp only [decode_one_utf16]
    rw [if_neg (by omega), if_neg (by omega), if_neg (by omega)]
    have e1 : 0xD800 + (c - 0x10000) / 1024 - 0xD800 = (c - 0x10000) / 1024 := by
      omega
    have e2 : 0xDC00 + (c - 0x10000) % 1024 - 0xDC00 = (c - 0x10000) % 1024 := by
      omega
    rw [e1, e2, orshl10 ((c - 0x10000) / 1024) ((c - 0x10000) % 1024) (by omega),
      show 0x10000 + (1024 * ((c - 0x10000) / 1024) + (c - 0x10000) % 1024) = c
        by omega]

theorem encode_utf8_length_pos (c : Nat) : 0 < (encode_utf8 c).length := by
  unfold encode_utf8
  split_ifs <;> simp

theorem encode_utf8_ne_nil (c : Nat) : encode_utf8 c ≠ [] := by
  exact List.ne_nil_of_length_pos (encode_utf8_length_pos c)

theorem encode_utf16_length_pos (c : Nat) : 0 < (encode_utf16 c).length := by
  unfold encode_utf16
  split_ifs <;> simp

theorem encode_utf16_ne_nil (c : Nat) : encode_utf16 c ≠ [] := by
  exact List.ne_nil_of_length_pos (encode_utf16_length_pos c)

theorem length_le_encodeAllUtf8 (cps : List Nat) :
    cps.length ≤ (encodeAllUtf8 cps).length := by
  induction cps with
  | nil => simp [encodeAllUtf8]
  | cons c cs ih =>
    simp only [encodeAllUtf8, List.length_append, List.length_cons]
    have := encode_utf8_length_pos c
    omega

theorem length_le_encodeAllUtf16 (cps : List Nat) :
    cps.length ≤ (encodeAllUtf16 cps).length := by
  induction cps with
  | nil => simp [encodeAllUtf16]
  | cons c cs ih =>
    simp only [encodeAllUtf16, List.length_append, List.length_cons]
    have := encode_utf16_length_pos c
    omega

theorem encodeAllUtf8_cons_ne_nil (c : Nat) (cs : List Nat) :
    encodeAllUtf8 (c :: cs) ≠ [] := by
  apply List.ne_nil_of_length_pos
  have h := length_le_encodeAllUtf8 (c :: cs)
  simp only [List.length_cons] at h
  omega

theorem encodeAllUtf16_cons_ne_nil (c : Nat) (cs : List Nat) :
    encodeAllUtf16 (c :: cs) ≠ [] := by
  apply List.ne_nil_of_length_pos
  have h := length_le_encodeAllUtf16 (c :: cs)
  simp only [List.length_cons] at h
  omega

/-! ### Unfolding equations for the fuelled conversion loops -/

theorem u16_of_u8_go_nil (pol : ErrorPolicy) (fuel : Nat) :
    u16_of_u8_go pol fuel [] = ([], true) := by
  cases fuel <;> rfl

theorem u16_of_u8_go_step (pol : ErrorPolicy) (fuel : Nat) (s : List Nat)
    (hs : s ≠ []) :
    u16_of_u8_go pol (fuel + 1) s =
      (if (decode_one_utf8 s).is_valid then
        (encode_utf16 (decode_one_utf8 s).codepoint ++
          (u16_of_u8_go pol fuel (s.drop (decode_one_utf8 s).consumed_units)).1,
         (u16_of_u8_go pol fuel (s.drop (decode_one_utf8 s).consumed_units)).2)
      else
        match pol with
        | .skipInvalidValues =>
          ((u16_of_u8_go pol fuel (s.drop (decode_one_utf8 s).consumed_units)).1,
           false)
        | .stopOnFirstError => ([], false)
        | .useReplacementCharacter =>
          (encode_utf16 REPLACEMENT_CHAR_32 ++
            (u16_of_u8_go pol fuel (s.drop (decode_one_utf8 s).consumed_units)).1,
           false)) := by
  obtain ⟨b, t, rfl⟩ := List.exists_cons_of_ne_nil hs
  rfl

theorem u32_of_u8_go_nil (pol : ErrorPolicy) (fuel : Nat) :
    u32_of_u8_go pol fuel [] = ([], true) := by
  cases fuel <;> rfl

theorem u32_of_u8_go_step (pol : ErrorPolicy) (fuel : Nat) (s : List Nat)
    (hs : s ≠ []) :
    u32_of_u8_go pol (fuel + 1) s =
      (if (decode_one_utf8 s).is_valid then
        ((decode_one_utf8 s).codepoint ::
          (u32_of_u8_go pol fuel (s.drop (decode_one_utf8 s).consumed_units)).1,
         (u32_of_u8_go pol fuel (s.drop (decode_one_utf8 s).consumed_units)).2)
      else
        match pol with
        | .skipInvalidValues =>
          ((u32_of_u8_go pol fuel (s.drop (decode_one_utf8 s).consumed_units)).1,
           false)
        | .stopOnFirstError => ([], false)
        | .useReplacementCharacter =>
          (REPLACEMENT_CHAR_32 ::
            (u32_of_u8_go pol fuel (s.drop (decode_one_utf8 s).consumed_units)).1,
           false)) := by
  obtain ⟨b, t, rfl⟩ := List.exists_cons_of_ne_nil hs
  rfl

theorem u8_of_u16_go_nil (pol : ErrorPolicy) (fuel : Nat) :
    u8_of_u16_go pol fuel [] = ([], true) := by
  cases fuel <;> rfl

theorem u8_of_u16_go_step (pol : ErrorPolicy) (fuel : Nat) (s : List Nat)
    (hs : s ≠ []) :
    u8_of_u16_go pol (fuel + 1) s =
      (if (decode_one_utf16 s).is_valid then
        (encode_utf8 (decode_one_utf16 s).codepoint ++
          (u8_of_u16_go pol fuel (s.drop (decode_one_utf16 s).consumed_units)).1,
         (u8_of_u16_go pol fuel (s.drop (decode_one_utf16 s).consumed_units)).2)
      else
        match pol with
        | .skipInvalidValues =>
          ((u8_of_u16_go pol fuel (s.drop (decode_one_utf16 s).consumed_units)).1,
           false)
        | .stopOnFirstError => ([], false)
        | .useReplacementCharacter =>
          (REPLACEMENT_CHAR_8 ++
            (u8_of_u16_go pol fuel (s.drop (decode_one_utf16 s).consumed_units)).1,
           false)) := by
  obtain ⟨b, t, rfl⟩ := List.exists_cons_of_ne_nil hs
  rfl

theorem u32_of_u16_go_nil (pol : ErrorPolicy) (fuel : Nat) :
    u32_of_u16_go pol fuel [] = ([], true) := by
  cases fuel <;> rfl

theorem u32_of_u16_go_step (pol : ErrorPolicy) (fuel : Nat) (s : List Nat)
    (hs : s ≠ []) :
    u32_of_u16_go pol (fuel + 1) s =
      (if (decode_one_utf16 s).is_valid then
        ((decode_one_utf16 s).codepoint ::
          (u32_of_u16_go pol fuel (s.drop (decode_one_utf16 s).consumed_units)).1,
         (u32_of_u16_go pol fuel (s.drop (decode_one_utf16 s).consumed_units)).2)
      else
        match pol with
        | .skipInvalidValues =>
          ((u32_of_u16_go pol fuel (s.drop (decode_one_utf16 s).consumed_units)).1,
           false)
        | .stopOnFirstError => ([], false)
        | .useReplacementCharacter =>
          (REPLACEMENT_CHAR_32 ::
            (u32_of_u16_go pol fuel (s.drop (decode_one_utf16 s).consumed_units)).1,
           false)) := by
  obtain ⟨b, t, rfl⟩ := List.exists_cons_of_ne_nil hs
  rfl

/-! ### The conversion loops on valid encoded input -/

theorem u16_of_u8_go_valid (pol : ErrorPolicy) (cps : List Nat) :
    ∀ fuel, (∀ c ∈ cps, IsScalar c) → cps.length ≤ fuel →
      u16_of_u8_go pol fuel (encodeAllUtf8 cps) = (encodeAllUtf16 cps, true) := by
  induction cps with
  | nil =>
    intro fuel _ _
    simp only [encodeAllUtf8, encodeAllUtf16]
    exact u16_of_u8_go_nil pol fuel
  | cons c cs ih =>
    intro fuel hsc hfuel
    obtain ⟨f, rfl⟩ : ∃ f, fuel = f + 1 :=
      ⟨fuel - 1, by simp only [List.length_cons] at hfuel; omega⟩
    have hc : IsScalar c := hsc c (List.mem_cons_self c cs)
    have hne : encode_utf8 c ++ encodeAllUtf8 cs ≠ [] := by
      intro h
      exact encode_utf8_ne_nil c (List.append_eq_nil.mp h).1
    simp only [encodeAllUtf8, encodeAllUtf16]
    rw [u16_of_u8_go_step pol f _ hne, decode_of_encode_utf8 c hc (encodeAllUtf8 cs)]
    simp only [List.drop_left, if_true]
    rw [ih f (fun x hx => hsc x (List.mem_cons_of_mem c hx))
      (by simp only [List.length_cons] at hfuel; omega)]

theorem u32_of_u8_go_valid (pol : ErrorPolicy) (cps : List Nat) :
    ∀ fuel, (∀ c ∈ cps, IsScalar c) → cps.length ≤ fuel →
      u32_of_u8_go pol fuel (encodeAllUtf8 cps) = (cps, true) := by
  induction cps with
  | nil =>
    intro fuel _ _
    simp only [encodeAllUtf8]
    exact u32_of_u8_go_nil pol fuel
  | cons c cs ih =>
    intro fuel hsc hfuel
    obtain ⟨f, rfl⟩ : ∃ f, fuel = f + 1 :=
      ⟨fuel - 1, by simp only [List.length_cons] at hfuel; omega⟩
    have hc : IsScalar c := hsc c (List.mem_cons_self c cs)
    have hne : encode_utf8 c ++ encodeAllUtf8 cs ≠ [] := by
      intro h
      exact encode_utf8_ne_nil c (List.append_eq_nil.mp h).1
    simp only [encodeAllUtf8]
    rw [u32_of_u8_go_step pol f _ hne, decode_of_encode_utf8 c hc (encodeAllUtf8 cs)]
    simp only [List.drop_left, if_true]
    rw [ih f (fun x hx => hsc x (List.mem_cons_of_mem c hx))
      (by simp only [List.length_cons] at hfuel; omega)]

theorem u8_of_u16_go_valid (pol : ErrorPolicy) (cps : List Nat) :
    ∀ fuel, (∀ c ∈ cps, IsScalar c) → cps.length ≤ fuel →
      u8_of_u16_go pol fuel (encodeAllUtf16 cps) = (encodeAllUtf8 cps, true) := by
  induction cps with
  | nil =>
    intro fuel _ _
    simp only [encodeAllUtf8, encodeAllUtf16]
    exact u8_of_u16_go_nil pol fuel
  | cons c cs ih =>
    intro fuel hsc hfuel
    obtain ⟨f, rfl⟩ : ∃ f, fuel = f + 1 :=
      ⟨fuel - 1, by simp only [List.length_cons] at hfuel; omega⟩
    have hc : IsScalar c := hsc c (List.mem_cons_self c cs)
    have hne : encode_utf16 c ++ encodeAllUtf16 cs ≠ [] := by
      intro h
      exact encode_utf16_ne_nil c (List.append_eq_nil.mp h).1
    simp only [encodeAllUtf8, encodeAllUtf16]
    rw [u8_of_u16_go_step pol f _ hne,
      decode_of_encode_utf16 c hc (encodeAllUtf16 cs)]
    simp only [List.drop_left, if_true]
    rw [ih f (fun x hx => hsc x (List.mem_cons_of_mem c hx))
      (by simp only [List.length_cons] at hfuel; omega)]

theorem u32_of_u16_go_valid (pol : ErrorPolicy) (cps : List Nat) :
    ∀ fuel, (∀ c ∈ cps, IsScalar c) → cps.length ≤ fuel →
      u32_of_u16_go pol fuel (encodeAllUtf16 cps) = (cps, true) := by
  induction cps with
  | nil =>
    intro fuel _ _
    simp only [encodeAllUtf16]
    exact u32_of_u16_go_nil pol fuel
  | cons c cs ih =>
    intro fuel hsc hfuel
    obtain ⟨f, rfl⟩ : ∃ f, fuel = f + 1 :=
      ⟨fuel - 1, by simp only [List.length_cons] at hfuel; omega⟩
    have hc : IsScalar c := hsc c (List.mem_cons_self c cs)
    have hne : encode_utf16 c ++ encodeAllUtf16 cs ≠ [] := by
      intro h
      exact encode_utf16_ne_nil c (List.append_eq_nil.mp h).1
    simp only [encodeAllUtf16]
    rw [u32_of_u16_go_step pol f _ hne,
      decode_of_encode_utf16 c hc (encodeAllUtf16 cs)]
    simp only [List.drop_left, if_true]
    rw [ih f (fun x hx => hsc x (List.mem_cons_of_mem c hx))
      (by simp only [List.length_cons] at hfuel; omega)]

theorem u32_inline_go_nil (pol : ErrorPolicy) (fuel : Nat) :
    u32_inline_go pol fuel [] = some ([], true) := by
  cases fuel <;> rfl

theorem u32_inline_go_valid (pol : ErrorPolicy) (cps : List Nat) :
    ∀ fuel, (∀ c ∈ cps, IsScalar c) → cps.length ≤ fuel →
      u32_inline_go pol fuel (encodeAllUtf8 cps) = some (cps, true) := by
  induction cps with
  | nil =>
    intro fuel _ _
    simp only [encodeAllUtf8]
    exact u32_inline_go_nil pol fuel
  | cons c cs ih =>
    intro fuel hsc hfuel
    obtain ⟨f, rfl⟩ : ∃ f, fuel = f + 1 :=
      ⟨fuel - 1, by simp only [List.length_cons] at hfuel; omega⟩
    have ihcs := ih f (fun x hx => hsc x (List.mem_cons_of_mem c hx))
      (by simp only [List.length_cons] at hfuel; omega)
    obtain ⟨hhi, hsur⟩ := hsc c (List.mem_cons_self c cs)
    by_cases h1 : c ≤ 0x7F
    · simp only [encodeAllUtf8, encode_utf8_one h1, List.cons_append,
        List.nil_append, u32_inline_go]
      rw [and_80_ascii c (by omega), if_pos rfl, ihcs]
      simp only [u32_inline_step]
      rw [if_pos (by omega)]
    · by_cases h2 : c ≤ 0x7FF
      · simp only [encodeAllUtf8, encode_utf8_two (by omega) h2,
          List.cons_append, List.nil_append, u32_inline_go]
        rw [and_80_lead2 (c / 64) (by omega), if_neg (by omega),
          and_e0_lead2 (c / 64) (by omega)]
        rw [if_pos (by constructor; rfl; simp)]
        simp only [List.getD_cons_zero, List.drop_succ_cons, List.drop_zero]
        rw [and_1f_lead2 (c / 64) (by omega), and_3f_cont (c % 64) (by omega),
          orshl6 (c / 64) (c % 64) (by omega),
          show 64 * (c / 64) + c % 64 = c by omega, ihcs]
        simp only [u32_inline_step]
        rw [if_pos (by omega)]
      · by_cases h3 : c ≤ 0xFFFF
        · simp only [encodeAllUtf8, encode_utf8_three (by omega) h3,
            List.cons_append, List.nil_append, u32_inline_go]
          rw [and_80_lead3 (c / 4096) (by omega), if_neg (by omega),
            and_e0_lead3 (c / 4096) (by omega), if_neg (by omega),
            and_f0_lead3 (c / 4096) (by omega)]
          rw [if_pos (by constructor; rfl; simp)]
          simp only [List.getD_cons_zero, List.getD_cons_succ,
            List.drop_succ_cons, List.drop_zero]
          rw [and_0f_lead3 (c / 4096) (by omega),
            and_3f_cont (c / 64 % 64) (by omega), and_3f_cont (c % 64) (by omega),
            assemble3 (c / 4096) (c / 64 % 64) (c % 64) (by omega) (by omega),
            show 4096 * (c / 4096) + 64 * (c / 64 % 64) + c % 64 = c by omega,
            ihcs]
          simp only [u32_inline_step]
          rw [if_pos (by omega)]
        · simp only [encodeAllUtf8, encode_utf8_four (by omega) hhi,
            List.cons_append, List.nil_append, u32_inline_go]
          rw [and_80_lead4 (c / 262144) (by omega), if_neg (by omega),
            and_e0_lead4 (c / 262144) (by omega), if_neg (by omega),
            and_f0_lead4 (c / 262144) (by omega), if_neg (by omega),
            and_f8_lead4 (c / 262144) (by omega)]
          rw [if_pos (by constructor; rfl; simp)]
          simp only [List.getD_cons_zero, List.getD_cons_succ,
            List.drop_succ_cons, List.drop_zero]
          rw [and_07_lead4 (c / 262144) (by omega),
            and_3f_cont (c / 4096 % 64) (by omega),
            and_3f_cont (c / 64 % 64) (by omega), and_3f_cont (c % 64) (by omega),
            assemble4 (c / 262144) (c / 4096 % 64) (c / 64 % 64) (c % 64)
              (by omega) (by omega) (by omega),
            show 262144 * (c / 262144) + 4096 * (c / 4096 % 64) +
              64 * (c / 64 % 64) + c % 64 = c by omega,
            ihcs]
          simp only [u32_inline_step]
          rw [if_pos (by omega)]

/-! ### Output length and subsequence relations of the UTF-8 decoding loop -/

theorem u32_of_u8_go_replace_length (fuel : Nat) : ∀ s : List Nat,
    ((u32_of_u8_go ErrorPolicy.useReplacementCharacter fuel s).1).length =
      utf8CodepointCountGo fuel s := by
  induction fuel with
  | zero => intro s; cases s <;> rfl
  | succ f ih =>
    intro s
    match s with
    | [] => rfl
    | b :: rest =>
      rw [u32_of_u8_go_step _ f _ (by simp)]
      by_cases hv : (decode_one_utf8 (b :: rest)).is_valid = true
      · rw [if_pos hv]
        simp only [List.length_cons, utf8CodepointCountGo]
        rw [ih]
        omega
      · rw [if_neg hv]
        simp only [List.length_cons, utf8CodepointCountGo]
        rw [ih]
        omega

theorem u32_of_u8_go_skip_sublist (fuel : Nat) : ∀ s : List Nat,
    ((u32_of_u8_go ErrorPolicy.skipInvalidValues fuel s).1).Sublist
      ((u32_of_u8_go ErrorPolicy.useReplacementCharacter fuel s).1) := by
  induction fuel with
  | zero =>
    intro s
    cases s <;> exact List.Sublist.refl _
  | succ f ih =>
    intro s
    match s with
    | [] => exact List.Sublist.refl _
    | b :: rest =>
      rw [u32_of_u8_go_step _ f _ (by simp), u32_of_u8_go_step _ f _ (by simp)]
      by_cases hv : (decode_one_utf8 (b :: rest)).is_valid = true
      · rw [if_pos hv, if_pos hv]
        exact List.Sublist.cons₂ _ (ih _)
      · rw [if_neg hv, if_neg hv]
        exact List.Sublist.cons _ (ih _)

/-! ### Well-formedness of produced UTF-16 -/

theorem cp2_lt (c b1 : Nat) : ((c &&& 31) <<< 6) ||| (b1 &&& 63) < 2048 := by
  have p11 : (2 : Nat) ^ 11 = 2048 := by norm_num
  have ha : (c &&& 31) <<< 6 < 2 ^ 11 := by
    have h1 : c &&& 31 ≤ 31 := Nat.and_le_right
    have p6 : (2 : Nat) ^ 6 = 64 := by norm_num
    rw [Nat.shiftLeft_eq, p6]
    omega
  have hb : b1 &&& 63 < 2 ^ 11 := by
    have h1 : b1 &&& 63 ≤ 63 := Nat.and_le_right
    omega
  have := Nat.or_lt_two_pow ha hb
  omega

theorem cp3_lt (c b1 b2 : Nat) :
    (((c &&& 15) <<< 12) ||| ((b1 &&& 63) <<< 6)) ||| (b2 &&& 63) < 65536 := by
  have p16 : (2 : Nat) ^ 16 = 65536 := by norm_num
  have p6 : (2 : Nat) ^ 6 = 64 := by norm_num
  have p12 : (2 : Nat) ^ 12 = 4096 := by norm_num
  have ha : (c &&& 15) <<< 12 < 2 ^ 16 := by
    have h1 : c &&& 15 ≤ 15 := Nat.and_le_right
    rw [Nat.shiftLeft_eq, p12]
    omega
  have hb : (b1 &&& 63) <<< 6 < 2 ^ 16 := by
    have h1 : b1 &&& 63 ≤ 63 := Nat.and_le_right
    rw [Nat.shiftLeft_eq, p6]
    omega
  have hab := Nat.or_lt_two_pow ha hb
  have hc : b2 &&& 63 < 2 ^ 16 := by
    have h1 : b2 &&& 63 ≤ 63 := Nat.and_le_right
    omega
  have := Nat.or_lt_two_pow hab hc
  omega

/-- The 2-byte decode arm always yields a scalar below 0x800. -/
theorem isScalar_cp2 (c X : Nat) : IsScalar (((c &&& 31) <<< 6) ||| (X &&& 63)) := by
  have := cp2_lt c X
  unfold IsScalar
  omega

theorem isScalar_cp3 (cp : Nat) (hlt : cp < 65536)
    (hsur : ¬ (55296 ≤ cp ∧ cp ≤ 57343)) : IsScalar cp := by
  unfold IsScalar
  omega

theorem isScalar_cp4 (cp : Nat) (hge : ¬ cp < 65536) (hle : ¬ 1114111 < cp) :
    IsScalar cp := by
  unfold IsScalar
  omega

/-- A valid UTF-8 decode always yields a Unicode scalar value. -/
theorem decode_one_utf8_valid_scalar (s : List Nat)
    (h : (decode_one_utf8 s).is_valid = true) :
    IsScalar (decode_one_utf8 s).codepoint := by
  cases s with
  | nil => simp [decode_one_utf8] at h
  | cons c rest =>
    revert h
    simp only [decode_one_utf8]
    repeat' split
    all_goals intro h
    all_goals try simp at h
    all_goals try dsimp only
    · unfold IsScalar
      omega
    · exact isScalar_cp2 c _
    · exact isScalar_cp3 _ (cp3_lt _ _ _) (by omega)
    · exact isScalar_cp4 _ (by omega) (by omega)

/-- Appending the UTF-16 encoding of a scalar preserves well-formedness. -/
theorem wf16_append_encode (cp : Nat) (hc : IsScalar cp) (rest : List Nat)
    (h : WellFormedUtf16 rest) : WellFormedUtf16 (encode_utf16 cp ++ rest) := by
  obtain ⟨hhi, hsur⟩ := hc
  by_cases h1 : cp ≤ 0xFFFF
  · rw [encode_utf16_bmp h1]
    exact WellFormedUtf16.bmp (by omega) h
  · rw [encode_utf16_pair (by omega) hhi]
    exact WellFormedUtf16.pair (by omega) (by omega) (by omega) (by omega) h

theorem u16_of_u8_go_wf (pol : ErrorPolicy) (fuel : Nat) : ∀ s : List Nat,
    WellFormedUtf16 (u16_of_u8_go pol fuel s).1 := by
  induction fuel with
  | zero =>
    intro s
    cases s <;> exact WellFormedUtf16.nil
  | succ f ih =>
    intro s
    match s with
    | [] => exact WellFormedUtf16.nil
    | b :: rest =>
      rw [u16_of_u8_go_step pol f _ (by simp)]
      by_cases hv : (decode_one_utf8 (b :: rest)).is_valid = true
      · rw [if_pos hv]
        exact wf16_append_encode _ (decode_one_utf8_valid_scalar _ hv) _ (ih _)
      · rw [if_neg hv]
        cases pol with
        | skipInvalidValues => exact ih _
        | stopOnFirstError => exact WellFormedUtf16.nil
        | useReplacementCharacter =>
          exact wf16_append_encode REPLACEMENT_CHAR_32 (by unfold IsScalar REPLACEMENT_CHAR_32; omega) _ (ih _)

theorem u16_of_u32_wf (pol : ErrorPolicy) : ∀ s : List Nat,
    WellFormedUtf16 (u16_of_u32 s pol).1 := by
  intro s
  induction s with
  | nil => exact WellFormedUtf16.nil
  | cons cp rest ih =>
    simp only [u16_of_u32]
    by_cases hc : cp ≤ 0x10FFFF ∧ ¬ (0xD800 ≤ cp ∧ cp ≤ 0xDFFF)
    · rw [if_pos hc]
      exact wf16_append_encode cp hc _ ih
    · rw [if_neg hc]
      cases pol with
      | skipInvalidValues => exact ih
      | stopOnFirstError => exact WellFormedUtf16.nil
      | useReplacementCharacter =>
        exact WellFormedUtf16.bmp (by unfold REPLACEMENT_CHAR_16; omega) ih

/-! ### The width engine and embedded NUL units -/

theorem two_step_list_induction {α : Type} {P : List α → Prop} (h0 : P [])
    (h1 : ∀ c, P [c])
    (h2 : ∀ c d rest, P rest → P (d :: rest) → P (c :: d :: rest)) :
    ∀ l, P l := by
  have key : ∀ n (l : List α), l.length ≤ n → P l := by
    intro n
    induction n with
    | zero =>
      intro l hl
      match l with
      | [] => exact h0
      | c :: t => simp at hl
    | succ n ih =>
      intro l hl
      match l with
      | [] => exact h0
      | [c] => exact h1 c
      | c :: d :: rest =>
        simp only [List.length_cons] at hl
        exact h2 c d rest (ih rest (by omega)) (ih (d :: rest) (by simp; omega))
  exact fun l => key l.length l le_rfl

theorem skipModifiers_length_le : ∀ l : List Nat,
    (skipModifiers l).length ≤ l.length := by
  refine two_step_list_induction ?_ ?_ ?_
  · simp [skipModifiers]
  · intro c
    simp only [skipModifiers]
    split
    · simp
    · simp
  · intro c d rest ih1 ih2
    simp only [skipModifiers]
    split
    · split
      · split
        · simp only [List.length_cons]
          omega
        · simp only [List.length_cons] at ih2 ⊢
          omega
      · simp only [List.length_cons] at ih2 ⊢
        omega
    · simp

theorem skipModifiers_nul (t : List Nat) : skipModifiers (0 :: t) = 0 :: t := by
  cases t with
  | nil => simp [skipModifiers]
  | cons x t' => simp [skipModifiers]

theorem skipModifiers_append_nul (t : List Nat) : ∀ a : List Nat,
    skipModifiers (a ++ 0 :: t) = skipModifiers a ++ 0 :: t := by
  refine two_step_list_induction ?_ ?_ ?_
  · rw [List.nil_append, skipModifiers_nul]
    rfl
  · intro c
    show skipModifiers (c :: 0 :: t) = skipModifiers [c] ++ 0 :: t
    simp only [skipModifiers]
    by_cases hm : c ≠ 0 ∧ isModifier c = true
    · rw [if_pos hm, if_pos hm, if_neg (by simp), skipModifiers_nul]
      simp
    · rw [if_neg hm, if_neg hm]
      simp
  · intro c d rest ih1 ih2
    show skipModifiers (c :: d :: (rest ++ 0 :: t)) =
      skipModifiers (c :: d :: rest) ++ 0 :: t
    simp only [skipModifiers]
    by_cases hm : c ≠ 0 ∧ isModifier c = true
    · rw [if_pos hm, if_pos hm]
      by_cases hz : c = 0x200D ∧ d ≠ 0
      · rw [if_pos hz, if_pos hz]
        by_cases he : isEmoji d = true
        · rw [if_pos he, if_pos he]
          exact ih1
        · rw [if_neg he, if_neg he]
          rw [List.cons_append] at ih2
          exact ih2
      · rw [if_neg hz, if_neg hz]
        rw [List.cons_append] at ih2
        exact ih2
    · rw [if_neg hm, if_neg hm]
      simp

theorem wcswidthGo_fuel (f1 : Nat) : ∀ f2 s, s.length ≤ f1 → s.length ≤ f2 →
    wcswidthGo f1 s = wcswidthGo f2 s := by
  induction f1 with
  | zero =>
    intro f2 s h1 h2
    match s with
    | [] => cases f2 <;> rfl
  | succ f ih =>
    intro f2 s h1 h2
    match s with
    | [] => cases f2 <;> rfl
    | c :: rest =>
      obtain ⟨g, rfl⟩ : ∃ g, f2 = g + 1 :=
        ⟨f2 - 1, by simp only [List.length_cons] at h2; omega⟩
      simp only [List.length_cons] at h1 h2
      simp only [wcswidthGo]
      by_cases hc : c = 0
      · rw [if_pos hc, if_pos hc]
      · rw [if_neg hc, if_neg hc]
        by_cases hw : mk_wcwidth c < 0
        · rw [if_pos hw, if_pos hw]
        · rw [if_neg hw, if_neg hw]
          by_cases he : isEmoji c = true
          · rw [if_pos he, if_pos he]
            rw [ih g (skipModifiers rest)
              (le_trans (skipModifiers_length_le rest) (by omega))
              (le_trans (skipModifiers_length_le rest) (by omega))]
          · rw [if_neg he, if_neg he]
            rw [ih g rest (by omega) (by omega)]

theorem wcswidthGo_append_nul (fuel : Nat) : ∀ s t : List Nat,
    (s ++ 0 :: t).length ≤ fuel →
    wcswidthGo fuel (s ++ 0 :: t) = wcswidthGo fuel s := by
  induction fuel with
  | zero =>
    intro s t h
    simp at h
  | succ f ih =>
    intro s t h
    match s with
    | [] =>
      simp only [List.nil_append, wcswidthGo]
      simp
    | c :: s' =>
      simp only [List.cons_append, List.length_cons, List.length_append] at h ⊢
      simp only [wcswidthGo]
      by_cases hc : c = 0
      · rw [if_pos hc, if_pos hc]
      · rw [if_neg hc, if_neg hc]
        by_cases hw : mk_wcwidth c < 0
        · rw [if_pos hw, if_pos hw]
        · rw [if_neg hw, if_neg hw]
          by_cases he : isEmoji c = true
          · rw [if_pos he, if_pos he]
            rw [skipModifiers_append_nul t s']
            rw [ih (skipModifiers s') t (by
              have hle := skipModifiers_length_le s'
              simp only [List.length_append, List.length_cons]
              omega)]
          · rw [if_neg he, if_neg he]
            rw [ih s' t (by
              simp only [List.length_append, List.length_cons]
              omega)]

/-- A NUL codepoint terminates `mk_wcswidth`: everything after it is
ignored. -/
theorem mk_wcswidth_append_nul (s t : List Nat) :
    mk_wcswidth (s ++ 0 :: t) = mk_wcswidth s := by
  unfold mk_wcswidth
  rw [wcswidthGo_append_nul _ s t le_rfl]
  exact wcswidthGo_fuel _ _ s (by simp) le_rfl

/-! ## Claim theorems -/

set_option maxRecDepth 8000

/-- C1: the spec claims every codepoint in the zero-width `combining` table
gets per-codepoint width 0, and the table's own comments add the skin-tone
modifiers and the ZWJ as zero-width entries.  The two entries appended
after `(0xE0100, 0xE01EF)` break the ascending order `bisearch` assumes:
the last entry's upper bound is U+200D, so the entry guard of `bisearch`
rejects every codepoint above U+200D, and the listed skin-tone modifiers
get width 2 while the variation selectors `U+FE00` / `U+E0100` and tag
characters `U+E0020..` get width 1, contradicting the claim. -/
theorem mk_wcwidth_zero_width_table_bug :
    (0x1F3FB, 0x1F3FF) ∈ combining ∧ (0xFE00, 0xFE0F) ∈ combining ∧
    (0xE0020, 0xE007F) ∈ combining ∧ (0xE0100, 0xE01EF) ∈ combining ∧
    mk_wcwidth 0x1F3FB = 2 ∧ mk_wcwidth 0xFE00 = 1 ∧
    mk_wcwidth 0xE0020 = 1 ∧ mk_wcwidth 0xE0100 = 1 ∧
    mk_wcwidth 0x200D = 0 := by
  refine ⟨?_, ?_, ?_, ?_, ?_, ?_, ?_, ?_, ?_⟩ <;> decide

/-- C2: a valid UTF-8 sequence converts to UTF-16 with `is_valid = true`,
converts back to UTF-8 with `is_valid = true` and the original bytes, and
the decoded codepoint sequence is identical on both hops. -/
theorem utf8_utf16_roundtrip (s : List Nat) (pol pol2 : ErrorPolicy)
    (h : ValidUtf8 s) :
    (u16_of_u8 s pol).2 = true ∧
    (u8_of_u16 (u16_of_u8 s pol).1 pol).2 = true ∧
    (u8_of_u16 (u16_of_u8 s pol).1 pol).1 = s ∧
    (u32_of_u16 (u16_of_u8 s pol).1 pol2).1 = (u32_of_u8 s pol2).1 := by
  obtain ⟨cps, hsc, rfl⟩ := h
  have h16 : u16_of_u8 (encodeAllUtf8 cps) pol = (encodeAllUtf16 cps, true) :=
    u16_of_u8_go_valid pol cps _ hsc (length_le_encodeAllUtf8 cps)
  have h8 : u8_of_u16 (encodeAllUtf16 cps) pol = (encodeAllUtf8 cps, true) :=
    u8_of_u16_go_valid pol cps _ hsc (length_le_encodeAllUtf16 cps)
  have h321 : u32_of_u16 (encodeAllUtf16 cps) pol2 = (cps, true) :=
    u32_of_u16_go_valid pol2 cps _ hsc (length_le_encodeAllUtf16 cps)
  have h322 : u32_of_u8 (encodeAllUtf8 cps) pol2 = (cps, true) :=
    u32_of_u8_go_valid pol2 cps _ hsc (length_le_encodeAllUtf8 cps)
  rw [h16]
  dsimp only
  rw [h8, h321, h322]
  exact ⟨rfl, rfl, rfl, rfl⟩

/-- C2 witness: the round-trip theorem applied to the bytes of the string
written A then e-acute, `41 C3 A9`. -/
theorem utf8_utf16_roundtrip_witness :
    ValidUtf8 [0x41, 0xC3, 0xA9] ∧
    ((u16_of_u8 [0x41, 0xC3, 0xA9] ErrorPolicy.useReplacementCharacter).2 = true ∧
     (u8_of_u16 (u16_of_u8 [0x41, 0xC3, 0xA9] ErrorPolicy.useReplacementCharacter).1
       ErrorPolicy.useReplacementCharacter).2 = true ∧
     (u8_of_u16 (u16_of_u8 [0x41, 0xC3, 0xA9] ErrorPolicy.useReplacementCharacter).1
       ErrorPolicy.useReplacementCharacter).1 = [0x41, 0xC3, 0xA9] ∧
     (u32_of_u16 (u16_of_u8 [0x41, 0xC3, 0xA9] ErrorPolicy.useReplacementCharacter).1
       ErrorPolicy.stopOnFirstError).1 =
       (u32_of_u8 [0x41, 0xC3, 0xA9] ErrorPolicy.stopOnFirstError).1) := by
  have hv : ValidUtf8 [0x41, 0xC3, 0xA9] := ⟨[0x41, 0xE9], by decide, by decide⟩
  exact ⟨hv, utf8_utf16_roundtrip [0x41, 0xC3, 0xA9] ErrorPolicy.useReplacementCharacter
    ErrorPolicy.stopOnFirstError hv⟩

/-- C3: the claim says the `combining` table is ascending and
non-overlapping (as its own comment asserts), but the two entries appended
at its end descend — `(0x1F3FB, 0x1F3FF)` follows `(0xE0100, 0xE01EF)` and
`(0x200D, 0x200D)` follows `(0x1F3FB, 0x1F3FF)` — and `(0x200D, 0x200D)`
also duplicates a codepoint already inside `(0x200B, 0x200F)`. -/
theorem combining_not_ordered :
    intervalsOrdered combining = false ∧
    (0x200B, 0x200F) ∈ combining ∧ (0x200D, 0x200D) ∈ combining := by
  refine ⟨?_, ?_, ?_⟩ <;> decide

/-- C4: converting UTF-8 to UTF-32 with `UseReplacementCharacter` yields
exactly one output codepoint per iteration of the decode loop, i.e. one
per valid decode plus one per single-unit invalid subpart. -/
theorem u32_replacement_preserves_codepoint_count (s : List Nat) :
    ((u32_of_u8 s ErrorPolicy.useReplacementCharacter).1).length =
      utf8CodepointCount s :=
  u32_of_u8_go_replace_length s.length s

/-- C5: every same-encoding conversion is a structural copy reported
valid, for every input (malformed or not) and every policy. -/
theorem same_encoding_identity (s : List Nat) (pol : ErrorPolicy) :
    u8_of_u8 s pol = (s, true) ∧ u16_of_u16 s pol = (s, true) ∧
      u32_of_u32 s pol = (s, true) :=
  ⟨rfl, rfl, rfl⟩

/-- C6: the ZWJ-joined family emoji, measured through UTF-32, UTF-8 and
UTF-16, has string width exactly 2. -/
theorem family_emoji_width_two :
    uswidth_u32 [0x1F468, 0x200D, 0x1F469, 0x200D, 0x1F467, 0x200D, 0x1F466] = 2 ∧
    uswidth_u8 [0xF0, 0x9F, 0x91, 0xA8, 0xE2, 0x80, 0x8D, 0xF0, 0x9F, 0x91, 0xA9,
      0xE2, 0x80, 0x8D, 0xF0, 0x9F, 0x91, 0xA7, 0xE2, 0x80, 0x8D,
      0xF0, 0x9F, 0x91, 0xA6] = 2 ∧
    uswidth_u16 [0xD83D, 0xDC68, 0x200D, 0xD83D, 0xDC69, 0x200D, 0xD83D, 0xDC67,
      0x200D, 0xD83D, 0xDC66] = 2 := by
  refine ⟨?_, ?_, ?_⟩ <;> decide

/-- C7 counterexample: on the bytes `EF BF BD` — the valid encoding of
U+FFFD — the skip output is `[U+FFFD]` while the replacement output with
all U+FFFD elements removed is empty, so the claimed subsequence relation
fails. -/
theorem skip_not_sublist_of_replace_without_fffd :
    ¬ ((u32_of_u8 [0xEF, 0xBF, 0xBD] ErrorPolicy.skipInvalidValues).1.Sublist
        (((u32_of_u8 [0xEF, 0xBF, 0xBD] ErrorPolicy.useReplacementCharacter).1).filter
          (fun c => c != 0xFFFD))) := by
  intro h
  have h1 : (u32_of_u8 [0xEF, 0xBF, 0xBD] ErrorPolicy.skipInvalidValues).1 =
      [0xFFFD] := by decide
  have h2 : (((u32_of_u8 [0xEF, 0xBF, 0xBD]
      ErrorPolicy.useReplacementCharacter).1).filter (fun c => c != 0xFFFD)) = [] := by
    decide
  rw [h1, h2] at h
  simp at h

/-- C7 amended: the `SkipInvalidValues` output codepoint sequence is a
subsequence of the `UseReplacementCharacter` output itself (without
removing U+FFFD elements, which can also arise from valid decodes). -/
theorem skip_sublist_of_replace (s : List Nat) :
    ((u32_of_u8 s ErrorPolicy.skipInvalidValues).1).Sublist
      ((u32_of_u8 s ErrorPolicy.useReplacementCharacter).1) :=
  u32_of_u8_go_skip_sublist s.length s

/-- C8 counterexample: the width loop `while (*p && remaining > 0)` stops
at a NUL codepoint, so `W([0, 'A']) = 0` although `W(['A']) = 1` — the
codepoint after the embedded NUL contributes nothing, contradicting the
claim that measurement continues past a NUL. -/
theorem wcswidth_nul_stops : mk_wcswidth [0, 0x41] = 0 ∧ mk_wcswidth [0x41] = 1 := by
  refine ⟨?_, ?_⟩ <;> decide

/-- C8 amended: a NUL codepoint terminates the string-width computation;
it contributes width 0 and every codepoint after it is ignored. -/
theorem wcswidth_embedded_nul (s t : List Nat) :
    mk_wcswidth (s ++ 0 :: t) = mk_wcswidth s :=
  mk_wcswidth_append_nul s t

/-- C9: both conversions into UTF-16 (from UTF-8 and from UTF-32) produce
well-formed UTF-16 for every input and every policy: each high surrogate
is immediately followed by a low surrogate and no isolated surrogate
occurs. -/
theorem u16_outputs_well_formed (s8 s32 : List Nat) (pol : ErrorPolicy) :
    WellFormedUtf16 (u16_of_u8 s8 pol).1 ∧ WellFormedUtf16 (u16_of_u32 s32 pol).1 :=
  ⟨u16_of_u8_go_wf pol s8.length s8, u16_of_u32_wf pol s32⟩

/-- C10 counterexample: on the overlong two-byte sequence `C0 80` with
`UseReplacementCharacter`, the inline `wutils::u32` of src/wutils.cpp
decodes the overlong form to NUL and reports valid, while
`wutils::detail::u32` of src/src/wutils.cpp emits two replacement
characters and reports invalid. -/
theorem u32_inline_detail_disagree :
    u32_inline [0xC0, 0x80] ErrorPolicy.useReplacementCharacter ≠
      some (u32_of_u8 [0xC0, 0x80] ErrorPolicy.useReplacementCharacter) := by
  decide

/-- C10 amended: on every valid UTF-8 input the two implementations agree
for every policy — both return the decoded scalar sequence marked valid
(the inline loop terminating within its fuel). -/
theorem u32_inline_agrees_on_valid (s : List Nat) (pol : ErrorPolicy)
    (h : ValidUtf8 s) :
    u32_inline s pol = some (u32_of_u8 s pol) := by
  obtain ⟨cps, hsc, rfl⟩ := h
  have h1 : u32_inline (encodeAllUtf8 cps) pol = some (cps, true) :=
    u32_inline_go_valid pol cps _ hsc (length_le_encodeAllUtf8 cps)
  have h2 : u32_of_u8 (encodeAllUtf8 cps) pol = (cps, true) :=
    u32_of_u8_go_valid pol cps _ hsc (length_le_encodeAllUtf8 cps)
  rw [h1, h2]

/-- C10 witness: agreement on the valid bytes `41 C3 A9`. -/
theorem u32_inline_agrees_on_valid_witness :
    ValidUtf8 [0x41, 0xC3, 0xA9] ∧
      u32_inline [0x41, 0xC3, 0xA9] ErrorPolicy.skipInvalidValues =
        some (u32_of_u8 [0x41, 0xC3, 0xA9] ErrorPolicy.skipInvalidValues) := by
  have hv : ValidUtf8 [0x41, 0xC3, 0xA9] := ⟨[0x41, 0xE9], by decide, by decide⟩
  exact ⟨hv, u32_inline_agrees_on_valid [0x41, 0xC3, 0xA9]
    ErrorPolicy.skipInvalidValues hv⟩

end Wutils
